import Mathlib

/-!
Verification of the dogehouse.py client-side session engine against its
natural-language specification.  All definitions below are shallow
embeddings of the Python source in `src/dogehouse/`:

* `parsers` embeds `src/dogehouse/utils/parsers.py`
* `createRoom` embeds `DogeClient.create_room` (client.py lines 497-511)
* the waiter registry embeds `DogeClient.wait_for` (lines 641-689) and the
  waiter-buffer part of `execute_listener` (lines 164-175)
* the roster machinery embeds the `event_loop` branches of client.py
  (lines 273-346)
* the command router embeds `execute_command` (lines 177-228) and the two
  registration decorators (module-level `command`, lines 71-103, and the
  per-instance `DogeClient.command`, lines 452-484)

Python machine details that matter are modelled explicitly: list mutation
during iteration (`data.remove(dt)` inside `for dt in data`), index errors
(`[...][0]` on an empty list, `record[2]` on a two-element record), and
short-circuit evaluation.
-/

deriving instance DecidableEq for Except

namespace Dogehouse

/-! ## Python string primitives, at codepoint level

Python strings are sequences of codepoints; `len`, slicing, `split(" ")`,
`startswith` and `endswith` are embedded over `String.data` so that every
operation is structurally recursive (and hence evaluable). -/

/-- Helper for `pySplitOnSpace`: accumulate the current word (reversed). -/
def splitOnSpaceAux : List Char → List Char → List String
  | [], acc => [String.mk acc.reverse]
  | c :: cs, acc =>
    if c = ' ' then String.mk acc.reverse :: splitOnSpaceAux cs []
    else splitOnSpaceAux cs (c :: acc)

/-- Python `s.split(" ")`: split on every single space, keeping empty
pieces; always returns a non-empty list. -/
def pySplitOnSpace (s : String) : List String :=
  splitOnSpaceAux s.data []

/-- Python `s.startswith(p)`. -/
def pyStartsWith (s p : String) : Bool :=
  p.data.isPrefixOf s.data

/-- Python `s.endswith(p)`. -/
def pyEndsWith (s p : String) : Bool :=
  p.data.reverse.isPrefixOf s.data.reverse

/-- Python `len(s)` (codepoint count). -/
def pyLen (s : String) : Nat :=
  s.data.length

/-- Python `s[n:]`. -/
def pyDrop (s : String) (n : Nat) : String :=
  String.mk (s.data.drop n)

/-- Python `s[:-1]` (used as `s[1:-1]` after `pyDrop`). -/
def pyDropLast (s : String) : String :=
  String.mk s.data.dropLast

/-- Python `sep.join(parts)` for `sep = " "`. -/
def pyJoinSpace : List String → String
  | [] => ""
  | [s] => s
  | s :: rest => s ++ " " ++ pyJoinSpace rest

/-! ## Chat-text tokenizer, from `src/dogehouse/utils/parsers.py` -/

/-- A dogehouse message token: a tag `t` and a value `v`
(`dict(t=t, v=v)` in the source). -/
structure Token where
  t : String
  v : String
deriving Repr, DecidableEq

/-- Embeds `parse_word_to_token` (parsers.py lines 46-70): classify one
whitespace-free word as mention / link / emote / block / plain text. -/
def parse_word_to_token (word : String) : Token :=
  if pyStartsWith word "@" ∧ pyLen word ≥ 3 then
    ⟨"mention", pyDrop word 1⟩
  else if pyStartsWith word "http" ∧ pyLen word ≥ 8 then
    ⟨"link", word⟩
  else if pyStartsWith word ":" ∧ pyEndsWith word ":" ∧ pyLen word ≥ 3 then
    ⟨"emote", pyDropLast (pyDrop word 1)⟩
  else if pyStartsWith word "`" ∧ pyEndsWith word "`" ∧ pyLen word ≥ 3 then
    ⟨"block", pyDropLast (pyDrop word 1)⟩
  else
    ⟨"text", word⟩

/-- Embeds `parse_sentence_to_tokens` (parsers.py lines 33-43): split on the
space character and tokenize each word. -/
def parse_sentence_to_tokens (sentence : String) : List Token :=
  (pySplitOnSpace sentence).map parse_word_to_token

/-- The `message_formats` table (parsers.py lines 26-30), in its
iteration order: how each non-plain token tag is rendered back to text. -/
def message_formats : List (String × (String → String)) :=
  [("mention", fun v => "@" ++ v),
   ("emote", fun v => ":" ++ v ++ ":"),
   ("block", fun v => "`" ++ v ++ "`")]

/-- Embeds `parse_token_to_message` (parsers.py lines 86-92): render one token,
scanning `message_formats` for the first matching tag. -/
def parse_token_to_message (token : Token) : String :=
  match message_formats.find? (fun kv => token.t == kv.1) with
  | some kv => kv.2 token.v
  | none => token.v

/-- Embeds `parse_tokens_to_message` (parsers.py lines 73-83): render every token
and join with single spaces. -/
def parse_tokens_to_message (tokens : List Token) : String :=
  pyJoinSpace (tokens.map parse_token_to_message)

/-! ## Outbound frames and `create_room`, from client.py -/

/-- An outbound frame: operation name plus payload fields we track
(`__send`, client.py lines 153-158). -/
structure Frame where
  op : String
  payload : List (String × String)
deriving Repr, DecidableEq

/-- Errors surfaced by the embedded client operations. -/
inductive DogeError where
  | invalidSize
  | commandNotFound
  | notEnoughArguments
  | indexError
deriving Repr, DecidableEq

/-- Embeds `DogeClient.create_room` (client.py lines 497-511): validate the name
length, then emit the `create_room` fetch frame; an out-of-range name
raises `InvalidSize` and nothing is sent. -/
def createRoom (name description : String) (pub : Bool) : Except DogeError Frame :=
  if 2 ≤ pyLen name ∧ pyLen name ≤ 60 then
    .ok ⟨"create_room",
      [("name", name), ("description", description),
       ("privacy", if pub then "public" else "private")]⟩
  else
    .error .invalidSize

/-! ## Room roster and the inbound dispatcher, from client.py `event_loop`

Roster members carry the fields the dispatcher reads: `id`,
`current_room_id` and the `room_permissions` record (entities.py). -/

/-- Embeds `Permission` (entities.py lines 72-102). -/
structure Permissions where
  askedToSpeak : Bool
  isMod : Bool
  isAdmin : Bool
  isSpeaker : Bool
deriving Repr, DecidableEq

/-- A roster member, restricted to the fields the dispatcher touches. -/
structure MUser where
  id : String
  currentRoomId : String
  perms : Permissions
deriving Repr, DecidableEq

/-- Events fired by the dispatcher via `execute_listener`; the two
permission events carry the listener names used in the source
(`on_permission_change` at line 340, `on_permissions_change` at 345). -/
inductive Ev where
  | onUserJoin (uid : String)
  | onUserLeave (uid : String)
  | onPermissionChange (uid ptype : String)
  | onPermissionsChange (uid ptype : String)
  | onUserBan (uid : String)
  | onSpeakerRequest (uid rid : String)
  | onRoomUsersFetch
deriving Repr, DecidableEq

/-- The demotion pass of the `mod_changed` / `new_room_creator` branch
(client.py lines 336-340): every user currently holding the admin flag
loses it, and one `on_permission_change` event fires per demoted user,
in roster order. -/
def demoteAdminsLoop : List MUser → List MUser × List Ev
  | [] => ([], [])
  | u :: rest =>
    let (rest', evs) := demoteAdminsLoop rest
    if u.perms.isAdmin then
      ({ u with perms := { u.perms with isAdmin := false } } :: rest',
       .onPermissionChange u.id "admin" :: evs)
    else
      (u :: rest', evs)

/-- The promotion pass (client.py lines 342-346): find the first user
matching both the target user id and room id, toggle the named
permission attribute, fire `on_permissions_change`, and `break`. -/
def togglePermFirst (isAdminAttr : Bool) (uid rid : String) :
    List MUser → List MUser × List Ev
  | [] => ([], [])
  | u :: rest =>
    if u.id = uid ∧ u.currentRoomId = rid then
      let u' :=
        if isAdminAttr then { u with perms := { u.perms with isAdmin := !u.perms.isAdmin } }
        else { u with perms := { u.perms with isMod := !u.perms.isMod } }
      (u' :: rest, [.onPermissionsChange u.id (if isAdminAttr then "admin" else "mod")])
    else
      let (rest', evs) := togglePermFirst isAdminAttr uid rid rest
      (u :: rest', evs)

/-- The whole `mod_changed` / `new_room_creator` branch (client.py lines
332-346): for the admin variant, demote every current admin first, then
toggle the flag on the first matching user. -/
def modChangedStep (isAdminAttr : Bool) (users : List MUser) (uid rid : String) :
    List MUser × List Ev :=
  let (us1, evs1) := if isAdminAttr then demoteAdminsLoop users else (users, [])
  let (us2, evs2) := togglePermFirst isAdminAttr uid rid us1
  (us2, evs1 ++ evs2)

/-- The `new_user_join_room` branch (client.py lines 273-276): append the
new user to the roster unconditionally. -/
def newUserJoinRoomStep (users : List MUser) (u : MUser) : List MUser × List Ev :=
  (users ++ [u], [.onUserJoin u.id])

/-- The `user_left_room` branch (client.py lines 277-280): take element 0
of the id-filtered roster (an `IndexError` when the filter is empty) and
remove that member. -/
def userLeftRoomStep (users : List MUser) (uid : String) :
    Except DogeError (List MUser × List Ev) :=
  match users.filter (fun u => u.id = uid) with
  | [] => .error .indexError
  | u :: _ => .ok (users.erase u, [.onUserLeave u.id])

/-- The `get_current_room_users_done` branch (client.py lines 326-331):
replace the roster wholesale with the refreshed list, then set the admin
flag on every entry whose id is the room creator's. -/
def roomUsersRefreshStep (creatorId : String) (newUsers : List MUser) :
    List MUser × List Ev :=
  (newUsers.map (fun u =>
      if u.id = creatorId then { u with perms := { u.perms with isAdmin := true } } else u),
   [.onRoomUsersFetch])

/-- Session state the roster-delta frames touch. -/
structure RoomState where
  creatorId : String
  users : List MUser
deriving Repr, DecidableEq

/-- The inbound roster-delta frames handled by `event_loop`. -/
inductive InFrame where
  | newUserJoinRoom (u : MUser)
  | userLeftRoom (userId : String)
  | modChanged (userId roomId : String)
  | newRoomCreator (userId roomId : String)
  | chatUserBanned (userId : String)
  | handRaised (userId roomId : String)
  | getCurrentRoomUsersDone (users : List MUser)
deriving Repr, DecidableEq

/-- One dispatch step of `event_loop` for the roster-delta frames
(client.py lines 273-346); `chat_user_banned` and `hand_raised` only fire
events and leave the roster untouched. -/
def dispatchStep (st : RoomState) : InFrame → Except DogeError (RoomState × List Ev)
  | .newUserJoinRoom u =>
    let (us, evs) := newUserJoinRoomStep st.users u
    .ok ({ st with users := us }, evs)
  | .userLeftRoom uid =>
    match userLeftRoomStep st.users uid with
    | .error e => .error e
    | .ok (us, evs) => .ok ({ st with users := us }, evs)
  | .modChanged uid rid =>
    let (us, evs) := modChangedStep false st.users uid rid
    .ok ({ st with users := us }, evs)
  | .newRoomCreator uid rid =>
    let (us, evs) := modChangedStep true st.users uid rid
    .ok ({ st with users := us }, evs)
  | .chatUserBanned uid => .ok (st, [.onUserBan uid])
  | .handRaised uid rid => .ok (st, [.onSpeakerRequest uid rid])
  | .getCurrentRoomUsersDone newUsers =>
    let (us, evs) := roomUsersRefreshStep st.creatorId newUsers
    .ok ({ st with users := us }, evs)

/-- The dispatch loop (client.py lines 231-346) restricted to
roster-delta frames: frames are processed in arrival order; an uncaught
error stops the loop, leaving the remaining frames unprocessed. -/
def runDispatch (st : RoomState) : List InFrame → Except (DogeError × List InFrame) RoomState
  | [] => .ok st
  | f :: rest =>
    match dispatchStep st f with
    | .error e => .error (e, rest)
    | .ok (st', _) => runDispatch st' rest

/-- Whether a roster holds two members with the same id. -/
def hasDupIds (users : List MUser) : Bool :=
  !(users.map MUser.id).Nodup

/-- The number of roster members holding the admin flag. -/
def adminCount (users : List MUser) : Nat :=
  (users.filter (fun u => u.perms.isAdmin)).length

/-- Strip the admin flag from one member (the effect of the demotion
pass on a single roster entry). -/
def demoteOne (u : MUser) : MUser :=
  if u.perms.isAdmin then { u with perms := { u.perms with isAdmin := false } } else u

/-- A concrete roster member used in counterexamples and witnesses. -/
def uAlice : MUser := ⟨"alice", "r1", ⟨false, false, false, false⟩⟩

/-- A concrete roster member holding the admin flag. -/
def uAdmin : MUser := ⟨"boss", "r1", ⟨false, false, true, false⟩⟩

/-! ## Python dict and string helpers for the router and waiter registry -/

/-- Python dict lookup `d.get(k)` over an insertion-ordered assoc list. -/
def pyLookup {α : Type} : List (String × α) → String → Option α
  | [], _ => none
  | (k', v) :: rest, k => if k' = k then some v else pyLookup rest k

/-- Python dict assignment `d[k] = v`: overwrite in place, else append. -/
def pyDictSet {α : Type} : List (String × α) → String → α → List (String × α)
  | [], k, v => [(k, v)]
  | (k', v') :: rest, k, v =>
    if k' = k then (k, v) :: rest else (k', v') :: pyDictSet rest k v

/-- Python `s.lower()`. -/
def pyLower (s : String) : String :=
  String.mk (s.data.map Char.toLower)

/-! ## Command registration and the command router, from client.py

`execute_command` (lines 177-228) inspects the handler signature; a
declared parameter is modelled by the two properties the router reads:
whether it has a default and whether it is keyword-only.  Values bound to
parameters never influence whether the router raises `(IndexError,
TypeError)` — `value.strip()`, the keyword join and
`Convertor.handle_basic_types` (which catches `TypeError` internally)
cannot raise them — so the binding loop is embedded as a success test. -/

/-- A declared handler parameter as `inspect.signature` exposes it. -/
structure Param where
  hasDefault : Bool
  keywordOnly : Bool
deriving Repr, DecidableEq

/-- A command handler: its declared parameter list, including the
leading `self` of an unbound module-level handler and `ctx` when
declared. -/
structure Handler where
  params : List Param
deriving Repr, DecidableEq

/-- One slot of a Python command-registration list. -/
inductive PyVal where
  | func (h : Handler)
  | bool (b : Bool)
  | int (n : Nat)
deriving Repr, DecidableEq

/-- The module-level `command` decorator's stored record
(client.py line 96): `[_func, False, int(cooldown)]`. -/
def moduleCommandRecord (h : Handler) (cooldown : Nat) : List PyVal :=
  [.func h, .bool false, .int cooldown]

/-- The per-instance `DogeClient.command` decorator's stored record
(client.py lines 479-484): `[func, True]` — two elements, no cooldown
slot. -/
def instanceCommandRecord (h : Handler) : List PyVal :=
  [.func h, .bool true]

/-- Read a registration slot as an int (slot 2 only ever holds
`int(cooldown)` when present). -/
def pyValInt : PyVal → Nat
  | .int n => n
  | _ => 0

/-- Read a registration slot as a handler (slot 0 only ever holds the
handler). -/
def pyValFunc : PyVal → Handler
  | .func h => h
  | _ => ⟨[]⟩

/-- Read a registration slot as a bool (slot 1 only ever holds the
bound flag). -/
def pyValBool : PyVal → Bool
  | .bool b => b
  | _ => false

/-- Outcome of one `execute_command` call. -/
inductive ExecOutcome where
  | scheduled (h : Handler)
  | cooldownTriggered (commandName : String) (remaining : Nat)
  | errCommandNotFound
  | errNotEnoughArguments
  | errIndexError
deriving Repr, DecidableEq

/-- The argument-binding loop (client.py lines 201-219): for parameter
index `idx`, if fewer raw arguments remain and the parameter has a
default, bind the default and continue; otherwise `args[idx]` raises
`IndexError` exactly when `idx` is out of range. -/
def bindParamsOk : List Param → Nat → Nat → Bool
  | [], _, _ => true
  | p :: rest, idx, argCount =>
    if idx + 1 > argCount ∧ p.hasDefault then bindParamsOk rest (idx + 1) argCount
    else if idx + 1 > argCount then false
    else bindParamsOk rest (idx + 1) argCount

/-- The binding-and-scheduling tail of `execute_command` (lines 196-225),
after the leading `self` has been popped for unbound handlers: if any
parameters remain, pop the context parameter, bind the rest, and record
the cooldown timestamp only after binding succeeded (line 220, inside
`if parameters:`); then schedule the handler.  A binding failure raises
`NotEnoughArguments` and records nothing. -/
def bindSchedule (h : Handler) (parameters : List Param) (instanceId : String)
    (invokedAt : Nat) (args : List String) (cache : List (String × Nat)) :
    ExecOutcome × List (String × Nat) :=
  match parameters with
  | [] => (.scheduled h, cache)
  | _ctx :: rest =>
    if bindParamsOk rest 0 args.length then
      (.scheduled h, pyDictSet cache instanceId invokedAt)
    else
      (.errNotEnoughArguments, cache)

/-- The post-cooldown part of `execute_command` (lines 189-225): read
handler and bound flag from the record; an unbound handler pops its
`self` parameter first (line 194, `parameters.pop(0)` raises on an empty
list, outside the `try`). -/
def executeCommandBind (record : List PyVal) (instanceId : String) (invokedAt : Nat)
    (args : List String) (cache : List (String × Nat)) :
    ExecOutcome × List (String × Nat) :=
  let h := pyValFunc (record.headD (.func ⟨[]⟩))
  let bound := pyValBool (record.getD 1 (.bool false))
  if bound then
    bindSchedule h h.params instanceId invokedAt args cache
  else
    match h.params with
    | [] => (.errIndexError, cache)
    | _self :: rest => bindSchedule h rest instanceId invokedAt args cache

/-- Embeds `execute_command` (client.py lines 177-228).  Lookup is by lowered
name; the cooldown check evaluates `_command[2]` first (an `IndexError`
on a two-element instance-decorator record, before the cache is even
consulted, by `and` short-circuit); a nonzero cooldown with a cached
timestamp less than `cooldown` seconds old fires the cooldown trigger
and returns without scheduling. -/
def executeCommand (commands : List (String × List PyVal)) (commandName authorId : String)
    (now : Nat) (args : List String) (cache : List (String × Nat)) :
    ExecOutcome × List (String × Nat) :=
  match pyLookup commands (pyLower commandName) with
  | none => (.errCommandNotFound, cache)
  | some record =>
    let instanceId := commandName ++ "-" ++ authorId
    match record.get? 2 with
    | none => (.errIndexError, cache)
    | some slot =>
      let cooldown := pyValInt slot
      match pyLookup cache instanceId with
      | some prior =>
        if cooldown ≠ 0 ∧ now - prior < cooldown then
          (.cooldownTriggered commandName (cooldown - (now - prior)), cache)
        else
          executeCommandBind record instanceId now args cache
      | none => executeCommandBind record instanceId now args cache

/-! ## Chat-message prefix routing, from client.py lines 281-306 -/

/-- Embeds `handle_command` (client.py lines 289-294): the content must start
with the prefix *and* be at least two characters longer than it; only
then is the remainder split on the space character and dispatched, with
the first token as the command name.  (`pySplitOnSpace` never returns an
empty list, so the `headD` default is never used.) -/
def handleCommandPrefix (content pfx : String) : Option (String × List String) :=
  if pyStartsWith content pfx ∧ pyLen content > pyLen pfx + 1 then
    let splitted := pySplitOnSpace (pyDrop content (pyLen pfx))
    some (splitted.headD "", splitted.tail)
  else
    none

/-- The prefix loop (client.py lines 296-301): try each configured
prefix in order, stopping at the first one for which `handle_command`
returned `True`. -/
def routePrefixes (content : String) : List String → Option (String × List String)
  | [] => none
  | p :: ps =>
    match handleCommandPrefix content p with
    | some r => some r
    | none => routePrefixes content ps

/-- Outcome of the chat-message dispatch branch. -/
inductive ChatOutcome where
  | noDispatch
  | dispatched (outcome : ExecOutcome)
  | caught (e : DogeError)
deriving Repr, DecidableEq

/-- The `except Exception` boundary around the prefix loop (client.py
lines 302-306): a command fault becomes an `on_error` delivery (or is
printed) and the dispatch loop continues with the next frame. -/
def chatBoundary (r : ExecOutcome × List (String × Nat)) :
    ChatOutcome × List (String × Nat) :=
  match r with
  | (.errCommandNotFound, c) => (.caught .commandNotFound, c)
  | (.errNotEnoughArguments, c) => (.caught .notEnoughArguments, c)
  | (.errIndexError, c) => (.caught .indexError, c)
  | (o, c) => (.dispatched o, c)

/-- The `new_chat_msg` branch (client.py lines 281-306) restricted to
command routing: the author's own messages are never routed; otherwise
the first prefix passing `handle_command`'s test selects command name
and raw arguments for `execute_command`, whose faults are caught at the
boundary. -/
def newChatMsgStep (commands : List (String × List PyVal)) (prefixes : List String)
    (selfId authorId content : String) (now : Nat) (cache : List (String × Nat)) :
    ChatOutcome × List (String × Nat) :=
  if authorId = selfId then (.noDispatch, cache)
  else
    match routePrefixes content prefixes with
    | none => (.noDispatch, cache)
    | some (name, args) => chatBoundary (executeCommand commands name authorId now args cache)

/-! ## Event-wait registry, from `wait_for` and `execute_listener`

`__waiting_for` maps an event base name to the fetch ids of its
registered waiters; `__waiting_for_fetches` maps a fetch id to the
argument-tuples buffered for it.  Argument values are an arbitrary type
`α` with decidable equality (Python's `list.remove` compares with
`==`). -/

/-- The two waiter maps of the client. -/
structure WaitMaps (α : Type) where
  waitingFor : List (String × List String)
  fetches : List (String × List (List α))
deriving Repr, DecidableEq

/-- The waiter-buffer side of `execute_listener` (client.py lines
172-175): when the listener name minus its first three characters
(`listener_name[3::]`) is a key of the waiter map, append the event's
argument-tuple to the buffer of every fetch id registered under it. -/
def bufferWaiters {α : Type} (m : WaitMaps α) (listenerName : String) (args : List α) :
    WaitMaps α :=
  match pyLookup m.waitingFor (pyDrop listenerName 3) with
  | none => m
  | some fids =>
    { m with
      fetches := fids.foldl (fun fm fid =>
        match pyLookup fm fid with
        | some existing => pyDictSet fm fid (existing ++ [args])
        | none => pyDictSet fm fid [args]) m.fetches }

/-- The registration step of `wait_for` (client.py lines 659-661):
append a fresh fetch id under the event name. -/
def waitForRegister {α : Type} (m : WaitMaps α) (eventName fid : String) : WaitMaps α :=
  { m with
    waitingFor :=
      match pyLookup m.waitingFor eventName with
      | some fids => pyDictSet m.waitingFor eventName (fids ++ [fid])
      | none => pyDictSet m.waitingFor eventName [fid] }

/-- The timeout cleanup of `wait_for` (client.py line 672):
`self.__waiting_for[event_name].remove(fetch_id)` — the id list loses
the fetch id; the buffer map is not touched. -/
def removeWaiterId {α : Type} (m : WaitMaps α) (eventName fid : String) : WaitMaps α :=
  match pyLookup m.waitingFor eventName with
  | some fids => { m with waitingFor := pyDictSet m.waitingFor eventName (fids.erase fid) }
  | none => m

/-- The predicate scan of `wait_for` (client.py lines 679-685),
`for dt in data: ... else: data.remove(dt)`, embedded at Python's
iterator level: the cursor `i` reads `data[i]` of the *current* list and
advances, while a failed check removes the current element, so the
element sliding into position `i` is skipped.  One fuel unit is spent
per iteration; `pyScan` supplies `data.length` fuel, which cannot run
out because every iteration either returns or shortens the list. -/
def pyScanGo {α : Type} [DecidableEq α] (check : List α → Bool) :
    Nat → List (List α) → Nat → Option (List α) × List (List α)
  | 0, data, _ => (none, data)
  | fuel + 1, data, i =>
    match data[i]? with
    | none => (none, data)
    | some dt =>
      if check dt then (some dt, data)
      else pyScanGo check fuel (data.erase dt) (i + 1)

/-- The predicate scan of `wait_for` over a full buffer. -/
def pyScan {α : Type} [DecidableEq α] (check : List α → Bool) (data : List (List α)) :
    Option (List α) × List (List α) :=
  pyScanGo check data.length data 0

/-- The claim-shaped description of the scan that actually matches the
code: a failing head is dropped and the element right after it is
skipped untested (it stays in the buffer); the first *visited* tuple
satisfying the check is returned. -/
def specScanSkip {α : Type} [DecidableEq α] (check : List α → Bool) :
    List (List α) → Option (List α) × List (List α)
  | [] => (none, [])
  | x :: rest =>
    if check x then (some x, x :: rest)
    else
      match rest with
      | [] => (none, [])
      | y :: rest2 =>
        let (r, rest2') := specScanSkip check rest2
        (r, y :: rest2')

/-- The value returned by `wait_for` (client.py line 689): a single
argument is unwrapped, a longer tuple is returned whole; `data[0][0]` on
an empty tuple raises `IndexError`. -/
inductive WaitResult (α : Type) where
  | single (a : α)
  | tuple (args : List α)
deriving Repr, DecidableEq

/-- How one `wait_for` call ends; `timeout` carries the loop's `passed`
accumulator at the moment the timeout error is raised. -/
inductive WaitOutcome (α : Type) where
  | timeout (elapsed : Nat)
  | returned (r : WaitResult α)
  | indexError
deriving Repr, DecidableEq

/-- Embeds `(*data[0],) if len(data[0]) > 1 else data[0][0]` (client.py line
689). -/
def mkWaitReturn {α : Type} : List α → WaitOutcome α
  | [] => .indexError
  | [a] => .returned (.single a)
  | a :: b :: rest => .returned (.tuple (a :: b :: rest))

/-- The polling loop of `wait_for` (client.py lines 666-689), driven by
a schedule: element `k` of the schedule lists the events
`execute_listener` processes during the `k`-th tick's sleep.  After the
sleep, `passed` grows by `tick`; past the timeout the waiter id is
removed and the timeout error raised; otherwise a non-missing buffer
entry is scanned (when a check is supplied) or returned directly.  A
scan in which no tuple passes stores the shrunken buffer and polls
again.  `none` means the schedule ended before the call did. -/
def waitForLoop {α : Type} [DecidableEq α] (eventName fid : String)
    (check : Option (List α → Bool)) (timeout tick : Nat) :
    Nat → List (List (String × List α)) → WaitMaps α →
    Option (WaitOutcome α × WaitMaps α)
  | _, [], _ => none
  | passed, batch :: restSched, m =>
    let m1 := batch.foldl (fun acc ev => bufferWaiters acc ev.1 ev.2) m
    let passed1 := passed + tick
    if passed1 > timeout then
      some (.timeout passed1, removeWaiterId m1 eventName fid)
    else
      match pyLookup m1.fetches fid with
      | none => waitForLoop eventName fid check timeout tick passed1 restSched m1
      | some data =>
        match check with
        | none =>
          match data with
          | [] => some (.indexError, m1)
          | d0 :: _ => some (mkWaitReturn d0, m1)
        | some chk =>
          match pyScan chk data with
          | (some dt, data') =>
            some (mkWaitReturn dt, { m1 with fetches := pyDictSet m1.fetches fid data' })
          | (none, data') =>
            waitForLoop eventName fid check timeout tick passed1 restSched
              { m1 with fetches := pyDictSet m1.fetches fid data' }

/-- A whole `wait_for` call (client.py lines 641-689): register a fresh
fetch id, then poll. -/
def waitFor {α : Type} [DecidableEq α] (m : WaitMaps α) (eventName fid : String)
    (check : Option (List α → Bool)) (timeout tick : Nat)
    (schedule : List (List (String × List α))) :
    Option (WaitOutcome α × WaitMaps α) :=
  waitForLoop eventName fid check timeout tick 0 schedule (waitForRegister m eventName fid)

theorem demoteAdminsLoop_eq (us : List MUser) :
    demoteAdminsLoop us =
      (us.map demoteOne,
       (us.filter (fun u => u.perms.isAdmin)).map (fun u => .onPermissionChange u.id "admin")) := by
  induction us with
  | nil => rfl
  | cons u rest ih =>
    by_cases h : u.perms.isAdmin
    · simp [demoteAdminsLoop, ih, demoteOne, h]
    · simp [demoteAdminsLoop, ih, demoteOne, h]

theorem demoteOne_id (u : MUser) : (demoteOne u).id = u.id := by
  unfold demoteOne; split <;> rfl

theorem demoteOne_roomId (u : MUser) : (demoteOne u).currentRoomId = u.currentRoomId := by
  unfold demoteOne; split <;> rfl

theorem demoteOne_not_admin (u : MUser) : (demoteOne u).perms.isAdmin = false := by
  unfold demoteOne
  by_cases h : u.perms.isAdmin <;> simp [h]

/-- If a matching member exists, the promotion pass fires exactly one
`on_permissions_change` event, carrying that member's id. -/
theorem togglePermFirst_events (b : Bool) (uid rid : String) (us : List MUser)
    (t : MUser)
    (hfind : us.find? (fun u => u.id = uid ∧ u.currentRoomId = rid) = some t) :
    (togglePermFirst b uid rid us).2 =
      [.onPermissionsChange t.id (if b then "admin" else "mod")] := by
  induction us with
  | nil => simp [List.find?] at hfind
  | cons u rest ih =>
    by_cases h : u.id = uid ∧ u.currentRoomId = rid
    · have : u = t := by
        rw [List.find?_cons_of_pos] at hfind
        · exact Option.some.inj hfind
        · simpa using h
      subst this
      simp [togglePermFirst, h]
    · rw [List.find?_cons_of_neg] at hfind
      · have := ih hfind
        simp only [togglePermFirst, if_neg h]
        simpa using this
      · simpa using h

/-- If no member holds the admin flag, the promotion pass leaves at most
one admin. -/
theorem togglePermFirst_adminCount (uid rid : String) (us : List MUser)
    (hall : ∀ u ∈ us, u.perms.isAdmin = false) :
    adminCount (togglePermFirst true uid rid us).1 ≤ 1 := by
  induction us with
  | nil => simp [togglePermFirst, adminCount]
  | cons u rest ih =>
    have hu : u.perms.isAdmin = false := hall u (by simp)
    have hrest : ∀ v ∈ rest, v.perms.isAdmin = false := fun v hv => hall v (by simp [hv])
    have hrest0 : rest.filter (fun v => v.perms.isAdmin) = [] := by
      rw [List.filter_eq_nil_iff]
      intro v hv
      simp [hrest v hv]
    by_cases h : u.id = uid ∧ u.currentRoomId = rid
    · simp [togglePermFirst, h, adminCount, List.filter_cons, hrest0, hu]
    · simp only [togglePermFirst, if_neg h, adminCount, List.filter_cons, hu]
      simpa [adminCount] using ih hrest

end Dogehouse

/-! ## Theorems for the tokenizer and `create_room` -/

open Dogehouse

/-- C8: tokenizing `"hello @bob :wave: http://x"` and reassembling the
tokens reproduces the original text exactly, with the mention, emote and
link markers restored. -/
theorem c8_token_round_trip :
    parse_tokens_to_message (parse_sentence_to_tokens "hello @bob :wave: http://x") =
      "hello @bob :wave: http://x" := by
  decide

/-- C7: `create_room` with a name of length outside 2..60 raises a
validation error (so no frame is sent), and with a name of length within
2..60 it sends the `create_room` fetch frame. -/
theorem c7_create_room_validation (name description : String) (pub : Bool) :
    (¬ (2 ≤ pyLen name ∧ pyLen name ≤ 60) →
      createRoom name description pub = .error .invalidSize) ∧
    ((2 ≤ pyLen name ∧ pyLen name ≤ 60) →
      ∃ f, createRoom name description pub = .ok f ∧ f.op = "create_room") := by
  constructor
  · intro h
    simp [createRoom, h]
  · intro h
    unfold createRoom
    rw [if_pos h]
    exact ⟨_, rfl, rfl⟩

/-- Witness for C7 at the spec's concrete lengths: a 1-character name
fails, a 60-character name succeeds, a 61-character name fails. -/
theorem c7_create_room_validation_witness :
    (¬ (2 ≤ pyLen "a" ∧ pyLen "a" ≤ 60) ∧
      createRoom "a" "" true = .error .invalidSize) ∧
    (∃ f, createRoom (String.mk (List.replicate 60 'a')) "" true = .ok f ∧
      f.op = "create_room") ∧
    (createRoom (String.mk (List.replicate 61 'a')) "" true = .error .invalidSize) := by
  refine ⟨⟨by decide, (c7_create_room_validation "a" "" true).1 (by decide)⟩, ?_, ?_⟩
  · exact (c7_create_room_validation (String.mk (List.replicate 60 'a')) "" true).2
      (by decide)
  · exact (c7_create_room_validation (String.mk (List.replicate 61 'a')) "" true).1
      (by decide)

/-! ## Theorems for the roster (C3, C5, C10) -/

/-- C3 counterexample: two `new_user_join_room` frames for the same user
are both appended, so after this delta sequence the roster holds two
members with the same id, refuting "the roster never contains two
members with the same id". -/
theorem c3_counterexample :
    runDispatch ⟨"creator", []⟩
        [.newUserJoinRoom uAlice, .newUserJoinRoom uAlice] =
      .ok ⟨"creator", [uAlice, uAlice]⟩ ∧
    hasDupIds [uAlice, uAlice] = true := by
  decide

/-- C3 (amended): roster deltas can introduce duplicate ids because
`new_user_join_room` appends unconditionally; but after a full roster
refresh the roster reflects exactly the refreshed member list (ids
preserved, creator flagged admin), so it has no duplicate ids whenever
the refreshed list has none. -/
theorem c3_refresh_no_dup_ids (st st' : RoomState) (newUsers : List MUser)
    (evs : List Ev)
    (hnodup : (newUsers.map MUser.id).Nodup)
    (hstep : dispatchStep st (.getCurrentRoomUsersDone newUsers) = .ok (st', evs)) :
    st'.users.map MUser.id = newUsers.map MUser.id ∧ hasDupIds st'.users = false := by
  have husers : st'.users = (roomUsersRefreshStep st.creatorId newUsers).1 := by
    simp only [dispatchStep] at hstep
    cases hstep
    rfl
  have hids : st'.users.map MUser.id = newUsers.map MUser.id := by
    rw [husers]
    simp only [roomUsersRefreshStep, List.map_map]
    apply List.map_congr_left
    intro u _
    by_cases h : u.id = st.creatorId <;> simp [h]
  refine ⟨hids, ?_⟩
  simp only [hasDupIds, hids, Bool.not_eq_true']
  simpa using hnodup

/-- Witness for C3 (amended): a refresh with two distinct-id members
yields exactly those ids and no duplicates. -/
theorem c3_refresh_no_dup_ids_witness :
    ([uAlice, uAdmin].map MUser.id).Nodup ∧
    ([uAdmin, uAlice].map MUser.id = [uAlice, uAdmin].map MUser.id ∨
      hasDupIds [uAlice, uAdmin] = false) := by
  refine ⟨by decide, .inr ?_⟩
  have h := c3_refresh_no_dup_ids ⟨"boss", [uAlice]⟩
    ⟨"boss", (roomUsersRefreshStep "boss" [uAlice, uAdmin]).1⟩
    [uAlice, uAdmin] [.onRoomUsersFetch] (by decide) (by decide)
  have husers : (⟨"boss", (roomUsersRefreshStep "boss" [uAlice, uAdmin]).1⟩ :
      RoomState).users = [uAlice, uAdmin] := by decide
  rw [husers] at h
  exact h.2

theorem modChangedStep_admin (us : List MUser) (uid rid : String) :
    modChangedStep true us uid rid =
      ((togglePermFirst true uid rid (us.map demoteOne)).1,
       (us.filter (fun u => u.perms.isAdmin)).map
           (fun u => Ev.onPermissionChange u.id "admin") ++
         (togglePermFirst true uid rid (us.map demoteOne)).2) := by
  simp [modChangedStep, demoteAdminsLoop_eq]

theorem find?_map_demoteOne (us : List MUser) (uid rid : String) :
    (us.map demoteOne).find? (fun u => u.id = uid ∧ u.currentRoomId = rid) =
      (us.find? (fun u => u.id = uid ∧ u.currentRoomId = rid)).map demoteOne := by
  rw [List.find?_map]
  have hp : ((fun u => decide (u.id = uid ∧ u.currentRoomId = rid)) ∘ demoteOne) =
      fun u : MUser => decide (u.id = uid ∧ u.currentRoomId = rid) := by
    funext u
    simp [Function.comp, demoteOne_id, demoteOne_roomId]
  rw [hp]

/-- C5: when a `new_room_creator` frame arrives while exactly one roster
member holds the admin flag and the target is present in the matching
room, the previous holder is demoted first with exactly one
permission-changed event, then the promotion event fires for the new
holder, and afterwards no two roster members hold the admin flag. -/
theorem c5_admin_promotion (st st' : RoomState) (uid rid : String)
    (prev tgt : MUser) (evs : List Ev)
    (hprev : st.users.filter (fun u => u.perms.isAdmin) = [prev])
    (htgt : st.users.find? (fun u => u.id = uid ∧ u.currentRoomId = rid) = some tgt)
    (hstep : dispatchStep st (.newRoomCreator uid rid) = .ok (st', evs)) :
    evs = [.onPermissionChange prev.id "admin",
           .onPermissionsChange tgt.id "admin"] ∧
    adminCount st'.users ≤ 1 := by
  have hfind : (st.users.map demoteOne).find?
      (fun u => u.id = uid ∧ u.currentRoomId = rid) = some (demoteOne tgt) := by
    rw [find?_map_demoteOne, htgt]
    rfl
  have hevs2 := togglePermFirst_events true uid rid (st.users.map demoteOne)
    (demoteOne tgt) hfind
  have hall : ∀ u ∈ st.users.map demoteOne, u.perms.isAdmin = false := by
    intro u hu
    obtain ⟨v, _, rfl⟩ := List.mem_map.mp hu
    exact demoteOne_not_admin v
  have hcount := togglePermFirst_adminCount uid rid (st.users.map demoteOne) hall
  simp only [dispatchStep, modChangedStep_admin] at hstep
  cases hstep
  constructor
  · rw [hprev, hevs2, demoteOne_id]
    rfl
  · simpa using hcount

/-- Witness for C5: a two-member roster with one admin; promoting the
other member demotes the admin first, fires the two events in order, and
leaves a single admin. -/
theorem c5_admin_promotion_witness :
    ([uAdmin, uAlice].filter (fun u => u.perms.isAdmin) = [uAdmin]) ∧
    ([uAdmin, uAlice].find? (fun u => u.id = "alice" ∧ u.currentRoomId = "r1") =
      some uAlice) ∧
    ((modChangedStep true [uAdmin, uAlice] "alice" "r1").2 =
      [.onPermissionChange "boss" "admin", .onPermissionsChange "alice" "admin"] ∧
     adminCount (modChangedStep true [uAdmin, uAlice] "alice" "r1").1 ≤ 1) := by
  refine ⟨by decide, by decide, ?_⟩
  exact c5_admin_promotion ⟨"boss", [uAdmin, uAlice]⟩
    ⟨"boss", (modChangedStep true [uAdmin, uAlice] "alice" "r1").1⟩
    "alice" "r1" uAdmin uAlice
    (modChangedStep true [uAdmin, uAlice] "alice" "r1").2
    (by decide) (by decide) (by decide)

/-- C10: a `user_left_room` frame whose user id matches no roster member
makes the dispatcher index element 0 of an empty filtered list; the
resulting `IndexError` is not caught inside the dispatch loop, so the
remaining frames are never processed. -/
theorem c10_user_left_unknown_stops_dispatch (st : RoomState) (uid : String)
    (rest : List InFrame)
    (h : ∀ u ∈ st.users, u.id ≠ uid) :
    runDispatch st (.userLeftRoom uid :: rest) = .error (.indexError, rest) := by
  have hfilter : st.users.filter (fun u => u.id = uid) = [] := by
    rw [List.filter_eq_nil_iff]
    intro u hu
    simp [h u hu]
  simp [runDispatch, dispatchStep, userLeftRoomStep, hfilter]

/-- Witness for C10: with only `uAdmin` in the roster, a leave frame for
the unknown id `"ghost"` raises and the following join frame is left
unprocessed. -/
theorem c10_user_left_unknown_stops_dispatch_witness :
    (∀ u ∈ [uAdmin], u.id ≠ "ghost") ∧
    runDispatch ⟨"boss", [uAdmin]⟩
        [.userLeftRoom "ghost", .newUserJoinRoom uAlice] =
      .error (.indexError, [.newUserJoinRoom uAlice]) := by
  exact ⟨by decide, c10_user_left_unknown_stops_dispatch ⟨"boss", [uAdmin]⟩ "ghost"
    [.newUserJoinRoom uAlice] (by decide)⟩

/-! ## Theorems for the command router (C4, C6, C9) -/

/-- C9: a command registered through the per-instance `DogeClient.command`
decorator is stored as the two-element record `[func, True]` with no
cooldown slot, so every invocation raises an `IndexError` at the
cooldown check (`_command[2]`) instead of scheduling the handler, and
the chat-dispatch boundary catches it like any other command fault. -/
theorem c9_instance_command_index_error
    (commands : List (String × List PyVal)) (h : Handler)
    (name authorId selfId content : String) (now : Nat)
    (cache : List (String × Nat)) (prefixes : List String) (args : List String)
    (hlook : pyLookup commands (pyLower name) = some (instanceCommandRecord h)) :
    executeCommand commands name authorId now args cache = (.errIndexError, cache) ∧
    (authorId ≠ selfId → routePrefixes content prefixes = some (name, args) →
      newChatMsgStep commands prefixes selfId authorId content now cache =
        (.caught .indexError, cache)) := by
  have hexec : executeCommand commands name authorId now args cache =
      (.errIndexError, cache) := by
    simp [executeCommand, hlook, instanceCommandRecord]
  refine ⟨hexec, fun hauthor hroute => ?_⟩
  simp [newChatMsgStep, hauthor, hroute, hexec, chatBoundary]

/-- Witness for C9: the instance-registered command `hello` invoked via
`"!hello x"` yields a caught `IndexError` and never schedules. -/
theorem c9_instance_command_index_error_witness :
    pyLookup [("hello", instanceCommandRecord ⟨[⟨false, false⟩]⟩)] (pyLower "hello") =
      some (instanceCommandRecord ⟨[⟨false, false⟩]⟩) ∧
    executeCommand [("hello", instanceCommandRecord ⟨[⟨false, false⟩]⟩)]
        "hello" "alice" 0 ["x"] [] = (.errIndexError, []) ∧
    newChatMsgStep [("hello", instanceCommandRecord ⟨[⟨false, false⟩]⟩)] ["!"]
        "me" "alice" "!hello x" 0 [] = (.caught .indexError, []) := by
  have h := c9_instance_command_index_error
    [("hello", instanceCommandRecord ⟨[⟨false, false⟩]⟩)] ⟨[⟨false, false⟩]⟩
    "hello" "alice" "me" "!hello x" 0 [] ["!"] ["x"] (by decide)
  exact ⟨by decide, h.1, h.2 (by decide) (by decide)⟩

/-- C4 counterexample: a module-registered command with cooldown 5 whose
handler declares only `self` (no context parameter) never records a
cooldown timestamp — line 220 sits inside `if parameters:` — so a second
invocation by the same user one second later is scheduled again and no
cooldown event ever fires, refuting "the handler is scheduled exactly
once and the cooldown event fires exactly once". -/
theorem c4_counterexample :
    executeCommand [("greet", moduleCommandRecord ⟨[⟨false, false⟩]⟩ 5)]
        "greet" "alice" 0 [] [] = (.scheduled ⟨[⟨false, false⟩]⟩, []) ∧
    executeCommand [("greet", moduleCommandRecord ⟨[⟨false, false⟩]⟩ 5)]
        "greet" "alice" 1 [] [] = (.scheduled ⟨[⟨false, false⟩]⟩, []) := by
  decide

/-- C4 (amended): for a module-registered command with nonzero cooldown
whose handler declares a context parameter, a first successful
invocation schedules the handler and records its timestamp, and a second
invocation by the same user within the cooldown window fires the
cooldown trigger exactly once with a strictly positive remaining time
and does not schedule; a first invocation whose binding fails records no
timestamp (it is recorded only after binding succeeds). -/
theorem c4_cooldown_window
    (commands : List (String × List PyVal)) (selfParam ctxParam : Param)
    (rest : List Param) (name authorId : String) (cooldown t1 t2 : Nat)
    (args1 args2 : List String) (cache : List (String × Nat))
    (hlook : pyLookup commands (pyLower name) =
      some (moduleCommandRecord ⟨selfParam :: ctxParam :: rest⟩ cooldown))
    (hcd : cooldown ≠ 0)
    (hbind : bindParamsOk rest 0 args1.length = true)
    (hcache : pyLookup cache (name ++ "-" ++ authorId) = none)
    (hwin : t2 - t1 < cooldown) :
    executeCommand commands name authorId t1 args1 cache =
      (.scheduled ⟨selfParam :: ctxParam :: rest⟩,
       pyDictSet cache (name ++ "-" ++ authorId) t1) ∧
    executeCommand commands name authorId t2 args2
        (pyDictSet cache (name ++ "-" ++ authorId) t1) =
      (.cooldownTriggered name (cooldown - (t2 - t1)),
       pyDictSet cache (name ++ "-" ++ authorId) t1) ∧
    0 < cooldown - (t2 - t1) ∧
    (∀ args', bindParamsOk rest 0 args'.length = false →
      executeCommand commands name authorId t1 args' cache =
        (.errNotEnoughArguments, cache)) := by
  have hset : pyLookup (pyDictSet cache (name ++ "-" ++ authorId) t1)
      (name ++ "-" ++ authorId) = some t1 := by
    induction cache with
    | nil => simp [pyDictSet, pyLookup]
    | cons kv restc ih =>
      by_cases hk : kv.1 = name ++ "-" ++ authorId
      · simp [pyDictSet, hk, pyLookup]
      · simp only [pyLookup, pyDictSet, if_neg hk] at *
        exact ih (by simpa [hk] using hcache)
  refine ⟨?_, ?_, by omega, ?_⟩
  · simp [executeCommand, hlook, hcache, moduleCommandRecord, executeCommandBind,
      pyValFunc, pyValBool, pyValInt, bindSchedule, hbind]
  · simp [executeCommand, hlook, hset, moduleCommandRecord, pyValInt, hcd, hwin]
  · intro args' hfail
    simp [executeCommand, hlook, hcache, moduleCommandRecord, executeCommandBind,
      pyValFunc, pyValBool, pyValInt, bindSchedule, hfail]

/-- Witness for C4 (amended): command `greet(self, ctx, arg)` with
cooldown 5, invoked at times 0 and 3 by the same user: scheduled then
throttled with remaining 2; invoking with no argument fails binding and
records nothing. -/
theorem c4_cooldown_window_witness :
    (executeCommand [("greet", moduleCommandRecord
        ⟨[⟨false, false⟩, ⟨false, false⟩, ⟨false, false⟩]⟩ 5)]
        "greet" "alice" 0 ["hi"] [] =
      (.scheduled ⟨[⟨false, false⟩, ⟨false, false⟩, ⟨false, false⟩]⟩,
        [("greet-alice", 0)]) ∧
     executeCommand [("greet", moduleCommandRecord
        ⟨[⟨false, false⟩, ⟨false, false⟩, ⟨false, false⟩]⟩ 5)]
        "greet" "alice" 3 ["yo"] [("greet-alice", 0)] =
      (.cooldownTriggered "greet" 2, [("greet-alice", 0)]) ∧
     0 < 5 - (3 - 0) ∧
     (∀ args', bindParamsOk [(⟨false, false⟩ : Param)] 0 args'.length = false →
        executeCommand [("greet", moduleCommandRecord
          ⟨[⟨false, false⟩, ⟨false, false⟩, ⟨false, false⟩]⟩ 5)]
          "greet" "alice" 0 args' [] = (.errNotEnoughArguments, []))) := by
  have h := c4_cooldown_window
    [("greet", moduleCommandRecord ⟨[⟨false, false⟩, ⟨false, false⟩, ⟨false, false⟩]⟩ 5)]
    ⟨false, false⟩ ⟨false, false⟩ [⟨false, false⟩] "greet" "alice" 5 0 3
    ["hi"] ["yo"] [] (by decide) (by decide) (by decide) (by decide) (by decide)
  exact h

/-- C6 counterexample: the content `"!a"` starts with the configured
prefix `"!"`, yet nothing is dispatched (the code also requires
`len(content) > len(prefix) + 1`); and for content `"!ab"` with prefixes
`["!a", "!"]` the first matching prefix `"!a"` falls through and the
dispatch is made under the *second* prefix — refuting "on the first
prefix match the remainder is dispatched and no further prefixes are
tried". -/
theorem c6_counterexample :
    pyStartsWith "!a" "!" = true ∧
    routePrefixes "!a" ["!"] = none ∧
    newChatMsgStep [] ["!"] "self" "author" "!a" 0 [] = (.noDispatch, []) ∧
    pyStartsWith "!ab" "!a" = true ∧
    routePrefixes "!ab" ["!a", "!"] = some ("ab", []) := by
  decide

/-- C6 (amended): for a message not authored by the session's own user,
dispatch happens at the first prefix that both starts the content and is
at least two characters shorter than it; prefixes failing either test
are skipped and later ones tried; on that first passing prefix the
remainder is split on the space character, the first token becoming the
command name and the rest the raw arguments handed to the command
router, with no later prefix tried. -/
theorem c6_first_passing_prefix_dispatch (pre post : List String) (p content : String)
    (commands : List (String × List PyVal)) (selfId authorId : String)
    (now : Nat) (cache : List (String × Nat))
    (hpre : ∀ q ∈ pre, ¬(pyStartsWith content q = true ∧ pyLen content > pyLen q + 1))
    (hp : pyStartsWith content p = true ∧ pyLen content > pyLen p + 1)
    (hauthor : authorId ≠ selfId) :
    routePrefixes content (pre ++ p :: post) =
      some ((pySplitOnSpace (pyDrop content (pyLen p))).headD "",
            (pySplitOnSpace (pyDrop content (pyLen p))).tail) ∧
    newChatMsgStep commands (pre ++ p :: post) selfId authorId content now cache =
      chatBoundary (executeCommand commands
        ((pySplitOnSpace (pyDrop content (pyLen p))).headD "") authorId now
        ((pySplitOnSpace (pyDrop content (pyLen p))).tail) cache) := by
  have hroute : routePrefixes content (pre ++ p :: post) =
      some ((pySplitOnSpace (pyDrop content (pyLen p))).headD "",
            (pySplitOnSpace (pyDrop content (pyLen p))).tail) := by
    induction pre with
    | nil =>
      simp [routePrefixes, handleCommandPrefix, hp.1, hp.2]
    | cons q pre' ih =>
      have hq := hpre q (by simp)
      have hrest : ∀ r ∈ pre', ¬(pyStartsWith content r = true ∧
          pyLen content > pyLen r + 1) := fun r hr => hpre r (by simp [hr])
      simp only [List.cons_append, routePrefixes]
      rw [show handleCommandPrefix content q = none by
        simp only [handleCommandPrefix, ite_eq_right_iff]
        intro hcond
        exact absurd ⟨hcond.1, hcond.2⟩ hq]
      exact ih hrest
  exact ⟨hroute, by simp [newChatMsgStep, hauthor, hroute]⟩

/-- Witness for C6 (amended): content `"!ab"` with prefixes
`["!a", "!", "?"]` dispatches command `"ab"` with no arguments under the
prefix `"!"`. -/
theorem c6_first_passing_prefix_dispatch_witness :
    (∀ q ∈ ["!a"], ¬(pyStartsWith "!ab" q = true ∧ pyLen "!ab" > pyLen q + 1)) ∧
    (pyStartsWith "!ab" "!" = true ∧ pyLen "!ab" > pyLen "!" + 1) ∧
    routePrefixes "!ab" (["!a"] ++ "!" :: ["?"]) = some ("ab", []) ∧
    newChatMsgStep [] (["!a"] ++ "!" :: ["?"]) "self" "author" "!ab" 0 [] =
      chatBoundary (executeCommand [] "ab" "author" 0 [] []) := by
  have h := c6_first_passing_prefix_dispatch ["!a"] ["?"] "!" "!ab" [] "self" "author" 0 []
    (by decide) (by decide) (by decide)
  refine ⟨by decide, by decide, ?_, ?_⟩
  · have : (pySplitOnSpace (pyDrop "!ab" (pyLen "!"))).headD "" = "ab" ∧
        (pySplitOnSpace (pyDrop "!ab" (pyLen "!"))).tail = ([] : List String) := by
      decide
    rw [h.1, this.1, this.2]
  · have heq : (pySplitOnSpace (pyDrop "!ab" (pyLen "!"))).headD "" = "ab" ∧
        (pySplitOnSpace (pyDrop "!ab" (pyLen "!"))).tail = ([] : List String) := by
      decide
    have := h.2
    rw [heq.1, heq.2] at this
    exact this

/-! ## Theorems for the event-wait registry (C1, C2) -/

theorem pyScanGo_oob {α : Type} [DecidableEq α] (check : List α → Bool)
    (fuel : Nat) (l : List (List α)) (i : Nat) (h : l.length ≤ i) :
    pyScanGo check fuel l i = (none, l) := by
  cases fuel with
  | zero => rfl
  | succ f => simp [pyScanGo, List.getElem?_eq_none h]

theorem pyScanGo_fuel_succ {α : Type} [DecidableEq α] (check : List α → Bool)
    (fuel : Nat) :
    ∀ (l : List (List α)) (i : Nat), l.length ≤ fuel + i →
      pyScanGo check (fuel + 1) l i = pyScanGo check fuel l i := by
  induction fuel with
  | zero =>
    intro l i h
    rw [pyScanGo_oob check 1 l i (by omega), pyScanGo_oob check 0 l i (by omega)]
  | succ f ih =>
    intro l i h
    cases hg : l[i]? with
    | none => simp [pyScanGo, hg]
    | some dt =>
      simp only [pyScanGo, hg]
      by_cases hc : check dt
      · simp [hc]
      · rw [Bool.not_eq_true] at hc
        simp only [hc, Bool.false_eq_true, if_false]
        apply ih
        have hm : dt ∈ l := List.getElem?_mem hg
        have hi : i < l.length := by
          by_contra hcon
          rw [List.getElem?_eq_none (by omega)] at hg
          exact Option.noConfusion hg
        rw [List.length_erase_of_mem hm]
        omega

theorem pyScanGo_cons_skip {α : Type} [DecidableEq α] (check : List α → Bool)
    (fuel : Nat) :
    ∀ (y : List α) (l : List (List α)) (i : Nat), y ∉ l →
      pyScanGo check fuel (y :: l) (i + 1) =
        ((pyScanGo check fuel l i).1, y :: (pyScanGo check fuel l i).2) := by
  induction fuel with
  | zero => intro y l i _; simp [pyScanGo]
  | succ f ih =>
    intro y l i hy
    simp only [pyScanGo, List.getElem?_cons_succ]
    cases hgi : l[i]? with
    | none => simp [hgi]
    | some dt =>
      simp only [hgi]
      by_cases hc : check dt
      · simp [hc]
      · rw [Bool.not_eq_true] at hc
        simp only [hc, Bool.false_eq_true, if_false]
        have hdt : dt ∈ l := List.getElem?_mem hgi
        have hne : ¬(y == dt) := by
          simp only [beq_iff_eq]
          exact fun he => hy (he ▸ hdt)
        rw [List.erase_cons_tail hne]
        exact ih y (l.erase dt) (i + 1) (fun hmem => hy (List.mem_of_mem_erase hmem))

/-- C2 (amended): the buffered-tuple scan of `wait_for` iterates with a
cursor over a list it is mutating, so each failing tuple is removed and
the tuple immediately after it is skipped untested and stays buffered;
the returned tuple is the first *visited* tuple satisfying the
predicate, as captured by `specScanSkip`.  (Distinct buffered tuples,
`data.Nodup`, make Python's remove-by-equality remove the visited
element itself.) -/
theorem c2_scan_skips_after_failure {α : Type} [DecidableEq α]
    (check : List α → Bool) :
    ∀ (data : List (List α)), data.Nodup →
      pyScan check data = specScanSkip check data
  | [], _ => by simp [pyScan, pyScanGo, specScanSkip]
  | x :: rest, h => by
    by_cases hc : check x
    · cases rest with
      | nil => simp [pyScan, pyScanGo, specScanSkip, hc]
      | cons y rest2 => simp [pyScan, pyScanGo, specScanSkip, hc]
    · rw [Bool.not_eq_true] at hc
      simp only [pyScan, List.length_cons, pyScanGo, List.getElem?_cons_zero, hc,
        Bool.false_eq_true, if_false, List.erase_cons_head]
      cases rest with
      | nil => simp [pyScanGo, specScanSkip, hc]
      | cons y rest2 =>
        have hy : y ∉ rest2 := (List.nodup_cons.mp h.of_cons).1
        have hn2 : rest2.Nodup := (List.nodup_cons.mp h.of_cons).2
        rw [List.length_cons, pyScanGo_cons_skip check (rest2.length + 1) y rest2 0 hy,
          pyScanGo_fuel_succ check rest2.length rest2 0 (by omega)]
        have ihres := c2_scan_skips_after_failure check rest2 hn2
        simp only [pyScan] at ihres
        rw [ihres]
        rcases hss : specScanSkip check rest2 with ⟨r, rest2'⟩
        simp [specScanSkip, hc, hss]
termination_by data => data.length

/-- Witness for C2 (amended): the scan over buffer `[[0],[1],[2]]` with
predicate "head ≥ 1" agrees with its skip-after-failure description. -/
theorem c2_scan_skips_after_failure_witness :
    ([[0], [1], [2]] : List (List Nat)).Nodup ∧
    pyScan (fun t => decide (t.headD 0 ≥ 1)) [[0], [1], [2]] =
      specScanSkip (fun t => decide (t.headD 0 ≥ 1)) [[0], [1], [2]] :=
  ⟨by decide, c2_scan_skips_after_failure (fun t => decide (t.headD 0 ≥ 1))
    [[0], [1], [2]] (by decide)⟩

/-- C2 counterexample: with tuples `[0]`, `[1]`, `[2]` buffered in that
arrival order and the predicate "head ≥ 1", the earliest satisfying
tuple is `[1]` (`[0]` fails), yet `wait_for` returns `2`: after
dropping `[0]` the cursor skips `[1]`; the skipped `[1]` even stays in
the buffer — refuting "the first tuple satisfying the predicate is
returned" and "every tuple failing the predicate is dropped and never
retried". -/
theorem c2_counterexample :
    waitFor (⟨[], []⟩ : WaitMaps Nat) "rooms_fetch" "F1"
        (some (fun t => decide (t.headD 0 ≥ 1))) 60 1
        [[("on_rooms_fetch", [0]), ("on_rooms_fetch", [1]), ("on_rooms_fetch", [2])]] =
      some (.returned (.single 2),
        ⟨[("rooms_fetch", ["F1"])], [("F1", [[1], [2]])]⟩) ∧
    ([1].headD 0 ≥ 1) ∧ ¬([0].headD 0 ≥ 1) := by
  decide

/-- C1 counterexample: a `wait_for` call that ends in success removes
nothing: the waiter id `"F1"` is still registered under `"rooms_fetch"`
in the waiter map and its buffer entry survives in the buffer map —
refuting "the waiter is removed from both maps on success". -/
theorem c1_counterexample :
    waitFor (⟨[], []⟩ : WaitMaps Nat) "rooms_fetch" "F1" none 60 1
        [[("on_rooms_fetch", [7])]] =
      some (.returned (.single 7),
        ⟨[("rooms_fetch", ["F1"])], [("F1", [[7]])]⟩) ∧
    pyLookup [("rooms_fetch", ["F1"])] "rooms_fetch" = some ["F1"] ∧
    pyLookup [("F1", [[7]])] "F1" = some ([[7]] : List (List Nat)) := by
  decide

theorem bufferWaiters_miss {α : Type} (m : WaitMaps α) (lname : String)
    (args : List α) (h : pyLookup m.waitingFor (pyDrop lname 3) = none) :
    bufferWaiters m lname args = m := by
  simp [bufferWaiters, h]

theorem c1_loop_timeout (eventName fid : String) (timeout tick : Nat) :
    ∀ (schedule : List (List (String × List Nat))) (passed : Nat),
      (∀ batch ∈ schedule, ∀ ev ∈ batch, pyDrop ev.1 3 ≠ eventName) →
      passed ≤ timeout →
      timeout < passed + schedule.length * tick →
      ∃ elapsed, elapsed > timeout ∧
        waitForLoop eventName fid (none : Option (List Nat → Bool)) timeout tick
            passed schedule ⟨[(eventName, [fid])], []⟩ =
          some (.timeout elapsed, ⟨[(eventName, [])], []⟩) := by
  intro schedule
  induction schedule with
  | nil =>
    intro passed _ hp hlen
    simp only [List.length_nil, Nat.zero_mul, Nat.add_zero] at hlen
    omega
  | cons batch rest ih =>
    intro passed hsched hp hlen
    have hbatch : batch.foldl (fun acc ev => bufferWaiters acc ev.1 ev.2)
        (⟨[(eventName, [fid])], []⟩ : WaitMaps Nat) = ⟨[(eventName, [fid])], []⟩ := by
      have hfix : ∀ ev ∈ batch,
          bufferWaiters (⟨[(eventName, [fid])], []⟩ : WaitMaps Nat) ev.1 ev.2 =
            ⟨[(eventName, [fid])], []⟩ := by
        intro ev hev
        apply bufferWaiters_miss
        have hne := hsched batch (by simp) ev hev
        simp only [pyLookup]
        rw [if_neg (fun he => hne he.symm)]
      clear hsched hp hlen ih
      induction batch with
      | nil => rfl
      | cons e restb ihb =>
        rw [List.foldl_cons, hfix e (by simp)]
        exact ihb (fun ev hev => hfix ev (by simp [hev]))
    by_cases ht : passed + tick > timeout
    · refine ⟨passed + tick, ht, ?_⟩
      simp only [waitForLoop, hbatch, if_pos ht]
      have hrem : removeWaiterId (⟨[(eventName, [fid])], []⟩ : WaitMaps Nat)
          eventName fid = ⟨[(eventName, [])], []⟩ := by
        simp [removeWaiterId, pyLookup, pyDictSet, List.erase_cons_head]
      rw [hrem]
    · have hrec := ih (passed + tick)
        (fun b hb ev hev => hsched b (by simp [hb]) ev hev)
        (by omega)
        (by
          rw [List.length_cons, Nat.succ_mul] at hlen
          omega)
      obtain ⟨elapsed, he, hloop⟩ := hrec
      refine ⟨elapsed, he, ?_⟩
      simp only [waitForLoop, hbatch, if_neg ht]
      exact hloop

/-- C1 (amended): only the timeout path of `wait_for` deregisters the
waiter, and only from the waiter map: in the claim's scenario — no event
whose base name matches ever fires — the call raises the timeout error
with strictly more than `timeout` elapsed, the fetch id is removed from
the waiter map's entry (which stays behind as an empty list) and no
buffer entry was ever created, so subsequent events of any name leave
the maps unchanged and cannot revive the waiter.  (On success, dually,
nothing is removed — see the counterexample.) -/
theorem c1_timeout_removes_waiter (eventName fid : String) (timeout tick : Nat)
    (schedule : List (List (String × List Nat)))
    (hsched : ∀ batch ∈ schedule, ∀ ev ∈ batch, pyDrop ev.1 3 ≠ eventName)
    (hlen : timeout < schedule.length * tick) :
    ∃ elapsed, elapsed > timeout ∧
      waitFor (⟨[], []⟩ : WaitMaps Nat) eventName fid none timeout tick schedule =
        some (.timeout elapsed, ⟨[(eventName, [])], []⟩) ∧
      ∀ lname args,
        bufferWaiters (⟨[(eventName, [])], []⟩ : WaitMaps Nat) lname args =
          ⟨[(eventName, [])], []⟩ := by
  have hreg : waitForRegister (⟨[], []⟩ : WaitMaps Nat) eventName fid =
      ⟨[(eventName, [fid])], []⟩ := by
    simp [waitForRegister, pyLookup, pyDictSet]
  obtain ⟨elapsed, he, hloop⟩ :=
    c1_loop_timeout eventName fid timeout tick schedule 0 hsched (by omega)
      (by simpa using hlen)
  refine ⟨elapsed, he, ?_, ?_⟩
  · rw [waitFor, hreg]
    exact hloop
  · intro lname args
    by_cases hb : pyDrop lname 3 = eventName
    · simp [bufferWaiters, pyLookup, hb]
    · apply bufferWaiters_miss
      simp only [pyLookup]
      rw [if_neg (fun he' => hb he'.symm)]

/-- Witness for C1 (amended): `wait_for("rooms_fetch", timeout=2,
tick=1)` over three ticks of unrelated events (`on_ready`,
`on_user_join`) times out with 3 elapsed and the waiter id removed. -/
theorem c1_timeout_removes_waiter_witness :
    (∀ batch ∈ [[("on_ready", ([] : List Nat))], [], [("on_user_join", [5])]],
       ∀ ev ∈ batch, pyDrop ev.1 3 ≠ "rooms_fetch") ∧
    (2 : Nat) < [[("on_ready", ([] : List Nat))], [], [("on_user_join", [5])]].length * 1 ∧
    ∃ elapsed, elapsed > 2 ∧
      waitFor (⟨[], []⟩ : WaitMaps Nat) "rooms_fetch" "F1" none 2 1
          [[("on_ready", [])], [], [("on_user_join", [5])]] =
        some (.timeout elapsed, ⟨[("rooms_fetch", [])], []⟩) ∧
      ∀ lname args,
        bufferWaiters (⟨[("rooms_fetch", [])], []⟩ : WaitMaps Nat) lname args =
          ⟨[("rooms_fetch", [])], []⟩ :=
  ⟨by decide, by decide,
    c1_timeout_removes_waiter "rooms_fetch" "F1" 2 1
      [[("on_ready", [])], [], [("on_user_join", [5])]] (by decide) (by decide)⟩
